import Mathlib

/-!
Verification of the DataTradeCentre scraping scripts.

Each regional script is shallowly embedded in its own namespace
(`Guangdong` for src/广东/cl.py, `HubeiCkpt` for src/湖北/cl.py,
`HefeiCenter` for src/安徽/合肥中心.py, `HefeiFlow` for
src/合肥数据流通/cl.py, `Beijing` for src/北京/cl.py, `Anhui` for
src/安徽/cl.py, `Shanghai` for src/上海/cl.py, `Tag` for
src/数据清洗/tag.py).  Python dicts are modelled as association lists,
JSON values as an inductive type, and the library calls the scripts make
(`json.dumps`, `json.loads`, `str`, `float`, file writes) as explicit
Lean functions over that type.
-/

namespace DTC

/-- Characters of a string, via the underlying representation. -/
def strChars (s : String) : List Char := s.data

/-- Python `s[:n]` on strings (character slicing). -/
def strTake (s : String) (n : Nat) : String := ⟨s.data.take n⟩

/-- Python `s.lower()` (ASCII lowering suffices for the header/body
checks the scripts perform). -/
def lower (s : String) : String := ⟨s.data.map Char.toLower⟩

/-- Drop leading whitespace characters. -/
def dropLeadWs : List Char → List Char
  | [] => []
  | c :: cs => if c.isWhitespace then dropLeadWs cs else c :: cs

/-- Python `s.strip()`: remove leading and trailing whitespace. -/
def pyStrip (s : String) : String :=
  ⟨(dropLeadWs (dropLeadWs s.data).reverse).reverse⟩

/-- Does the list `b` start with the list `a`? -/
def leadEq : List Char → List Char → Bool
  | [], _ => true
  | _ :: _, [] => false
  | a :: as, b :: bs => a == b && leadEq as bs

/-- Python `needle in hay` on strings (substring test). -/
def strContains (hay needle : String) : Bool :=
  (List.range (hay.data.length + 1)).any fun i => leadEq needle.data (hay.data.drop i)

/-- JSON values as produced by `resp.json()` / `json.loads`.  Numbers are
modelled as integers: every numeric literal the claims exercise on the
scraper scripts is integral. -/
inductive Json where
  | null : Json
  | bool (b : Bool) : Json
  | num (n : Int) : Json
  | str (s : String) : Json
  | arr (l : List Json) : Json
  | obj (l : List (String × Json)) : Json

/-- Lookup in a Python dict modelled as an association list
(`d.get(k)` without default). -/
def lookupJ : List (String × Json) → String → Option Json
  | [], _ => none
  | (k', v) :: t, k => if k' = k then some v else lookupJ t k

/-- Python `d.get(k)`: missing keys read as `None`. -/
def getJ (l : List (String × Json)) (k : String) : Json :=
  (lookupJ l k).getD Json.null

/-- Python truthiness of a JSON value. -/
def truthy : Json → Bool
  | Json.null => false
  | Json.bool b => b
  | Json.num n => n != 0
  | Json.str s => s != ""
  | Json.arr l => !l.isEmpty
  | Json.obj l => !l.isEmpty

/-- Python `a or b` on JSON values. -/
def pyOr (a b : Json) : Json := if truthy a then a else b

/-- Escape one character the way `json.dumps(..., ensure_ascii=False)`
does inside a string literal. -/
def escChar (c : Char) : String :=
  if c = '"' then "\\\""
  else if c = '\\' then "\\\\"
  else if c = '\n' then "\\n"
  else if c = '\r' then "\\r"
  else if c = '\t' then "\\t"
  else if c.toNat < 32 then
    let hexDigit (n : Nat) : Char := if n < 10 then Char.ofNat (48 + n) else Char.ofNat (87 + n)
    String.mk ['\\', 'u', '0', '0', hexDigit (c.toNat / 16), hexDigit (c.toNat % 16)]
  else String.singleton c

/-- Escape a whole string for a JSON string literal. -/
def escape (s : String) : String := String.join (s.data.map escChar)

mutual

/-- Serialization of `json.dumps(v, ensure_ascii=False)` with Python's
default separators `", "` and `": "`; dict entries are emitted in
insertion order, exactly as CPython does. -/
def dumps : Json → String
  | Json.null => "null"
  | Json.bool true => "true"
  | Json.bool false => "false"
  | Json.num n => toString n
  | Json.str s => "\"" ++ escape s ++ "\""
  | Json.arr l => "[" ++ dumpsArr l ++ "]"
  | Json.obj l => "\x7b" ++ dumpsObj l ++ "\x7d"

/-- Comma-separated serialization of an array's elements. -/
def dumpsArr : List Json → String
  | [] => ""
  | [x] => dumps x
  | x :: xs => dumps x ++ ", " ++ dumpsArr xs

/-- Comma-separated serialization of an object's entries. -/
def dumpsObj : List (String × Json) → String
  | [] => ""
  | [(k, v)] => "\"" ++ escape k ++ "\": " ++ dumps v
  | (k, v) :: xs => "\"" ++ escape k ++ "\": " ++ dumps v ++ ", " ++ dumpsObj xs

end

/-- Python `str(v)` on the JSON values the scripts feed it.  Scalars
follow CPython exactly; container values (which no settled claim feeds
to `str`) are abstracted by their JSON serialization. -/
def pyStr : Json → String
  | Json.null => "None"
  | Json.bool true => "True"
  | Json.bool false => "False"
  | Json.num n => toString n
  | Json.str s => s
  | v => dumps v

end DTC

namespace Guangdong

open DTC

/-- A normalized product row as built by `norm` in src/广东/cl.py: a
Python dict from column name to value. -/
abbrev Row := List (String × DTC.Json)

/-- Embedding of `dedup_key` (src/广东/cl.py, lines 95-101): the stripped
natural id field, falling back to the stripped product number when the id
is empty. -/
def dedup_key (r : Row) : String :=
  let k := pyStrip (pyStr ((lookupJ r "产品ID").getD (Json.str "")))
  if k ≠ "" then k else pyStrip (pyStr ((lookupJ r "产品编号").getD (Json.str "")))

/-- State of the dedup loop in `main` (src/广东/cl.py, lines 109-139):
the seen-set and the accumulated output rows. -/
structure DedupState where
  seen : List String
  out : List Row

/-- One iteration of the per-row loop body in `main` (src/广东/cl.py,
lines 131-140): `if not k or k in seen: continue; seen.add(k);
rows_out.append(r)`. -/
def mainStep (st : DedupState) (r : Row) : DedupState :=
  let k := dedup_key r
  if k = "" ∨ k ∈ st.seen then st
  else { seen := k :: st.seen, out := st.out ++ [r] }

/-- The dedup loop folded over a list of normalized rows. -/
def runDedup (st : DedupState) (rows : List Row) : DedupState :=
  rows.foldl mainStep st

/-- Number of rows with identity `k` in an output list. -/
def emittedCount (out : List Row) (k : String) : Nat :=
  (out.filter fun r => dedup_key r = k).length

end Guangdong

namespace Ckpt

open DTC

/-- A file system: association of path to file content; the most recent
entry for a path shadows older ones. -/
abbrev Fs := List (String × String)

/-- Content of the file at `p`, if it exists. -/
def fsGet : Fs → String → Option String
  | [], _ => none
  | (q, c) :: t, p => if q = p then some c else fsGet t p

/-- Write (create or overwrite) the file at `p`. -/
def fsSet (fs : Fs) (p c : String) : Fs := (p, c) :: fs

/-- Remove the file at `p`. -/
def fsDel (fs : Fs) (p : String) : Fs := fs.filter fun e => e.1 ≠ p

/-- File-system effects a checkpoint save can perform: an ordinary
file write, or the atomic `os.replace(src, dst)`. -/
inductive FsOp where
  | write (path content : String) : FsOp
  | replace (src dst : String) : FsOp

/-- Effect of one fully-completed operation. -/
def applyOp (fs : Fs) : FsOp → Fs
  | FsOp.write p c => fsSet fs p c
  | FsOp.replace s d =>
    match fsGet fs s with
    | some c => fsSet (fsDel fs s) d c
    | none => fs

/-- File systems observable if the process dies while this single
operation is in progress (or just after it): an interrupted plain write
may leave any truncated part of the content on disk, while
`os.replace` is atomic — either it has not happened or it has happened
completely. -/
def opCrashStates (fs : Fs) : FsOp → List Fs
  | FsOp.write p c =>
    (List.range (c.data.length + 1)).map fun n => fsSet fs p (strTake c n)
  | FsOp.replace s d => [fs, applyOp fs (FsOp.replace s d)]

/-- All file systems observable if the process dies at any point during
(or after) a sequence of operations. -/
def crashStates (fs : Fs) : List FsOp → List Fs
  | [] => [fs]
  | op :: rest => opCrashStates fs op ++ crashStates (applyOp fs op) rest

/-- The possible observable contents of `target` across all crash
points of an operation sequence. -/
def crashTargetContents (fs : Fs) (ops : List FsOp) (target : String) : List (Option String) :=
  (crashStates fs ops).map fun st => fsGet st target

/-- Embedding of `save_progress` (src/安徽/合肥中心.py, lines 178-182) as
its file-system effects: write the serialized checkpoint to `path +
".tmp"`, then `os.replace` the temp file onto `path`. -/
def save_progress_ops (path content : String) : List FsOp :=
  [FsOp.write (path ++ ".tmp") content, FsOp.replace (path ++ ".tmp") path]

/-- Embedding of `save_checkpoint` (src/湖北/cl.py, lines 47-50) as its
file-system effects: `json.dump` straight into the checkpoint file opened
with mode `"w"` — a direct, non-atomic write of the target. -/
def save_checkpoint_ops (path content : String) : List FsOp :=
  [FsOp.write path content]

end Ckpt

namespace CkptLoad

open DTC

/-- Result of reading the checkpoint file: absent, present but not valid
JSON (`json.load` raises), or valid JSON. -/
inductive FileContent where
  | corrupt : FileContent
  | jsonOf (j : DTC.Json) : FileContent

/-- Python `int(x)` on a JSON value: integers pass through, booleans
count as 0/1, integer-literal strings parse, everything else raises
(modelled as `none`). -/
def digitsVal : List Char → Option Nat
  | [] => none
  | l => if l.all Char.isDigit then
      some (l.foldl (fun a c => a * 10 + (c.toNat - 48)) 0)
    else none

/-- Parse a Python `int(...)`-accepted string. -/
def parseIntStr (s : String) : Option Int :=
  match (DTC.pyStrip s).data with
  | '-' :: rest => (digitsVal rest).map fun n => -(n : Int)
  | '+' :: rest => (digitsVal rest).map fun n => (n : Int)
  | l => (digitsVal l).map fun n => (n : Int)

/-- Python `int(x)` over JSON values. -/
def toIntPy : Json → Option Int
  | Json.num n => some n
  | Json.bool b => some (if b then 1 else 0)
  | Json.str s => parseIntStr s
  | _ => none

/-- Embedding of `load_progress` (src/安徽/合肥中心.py, lines 166-175):
absent file defaults to page 1; any exception while parsing or
converting (`json.load`, `.get` on a non-dict, `int(...)`) is caught and
also defaults to page 1; the result is clamped to at least 1. -/
def load_progress : Option FileContent → Int
  | none => 1
  | some FileContent.corrupt => 1
  | some (FileContent.jsonOf (Json.obj l)) =>
    match toIntPy ((lookupJ l "next_page_no").getD (Json.num 1)) with
    | some n => max 1 n
    | none => 1
  | some (FileContent.jsonOf _) => 1

/-- Embedding of `load_checkpoint` (src/湖北/cl.py, lines 40-44): an
absent file yields the default checkpoint, but a present, corrupt file
is handed to `json.load` with no exception handler, so the decode error
propagates. -/
def load_checkpoint : Option FileContent → Except String Json
  | none => Except.ok (Json.obj [("page_index", Json.num 1), ("seen_keys", Json.arr [])])
  | some FileContent.corrupt => Except.error "json.JSONDecodeError"
  | some (FileContent.jsonOf j) => Except.ok j

end CkptLoad

namespace DTC

/-- Lexicographic comparison of character lists by code point. -/
def charsLe : List Char → List Char → Bool
  | [], _ => true
  | _ :: _, [] => false
  | a :: as, b :: bs =>
    if a.toNat < b.toNat then true
    else if b.toNat < a.toNat then false
    else charsLe as bs

/-- Total order on strings used to canonicalize object keys. -/
def strLe (a b : String) : Bool := charsLe a.data b.data

/-- Insert an entry into a key-sorted association list. -/
def insertSorted (x : String × Json) : List (String × Json) → List (String × Json)
  | [] => [x]
  | y :: ys => if strLe x.1 y.1 then x :: y :: ys else y :: insertSorted x ys

/-- Sort an association list by key. -/
def sortByKey (l : List (String × Json)) : List (String × Json) :=
  l.foldr insertSorted []

mutual

/-- Canonical form of a JSON value under Python mapping equality: object
entries are recursively canonicalized and sorted by key.  Two Python
values coming from JSON (hence without duplicate dict keys) compare
equal with `==` exactly when their canonical forms coincide. -/
def canon : Json → Json
  | Json.null => Json.null
  | Json.bool b => Json.bool b
  | Json.num n => Json.num n
  | Json.str s => Json.str s
  | Json.arr l => Json.arr (canonList l)
  | Json.obj l => Json.obj (sortByKey (canonObj l))

/-- Canonicalize every element of an array. -/
def canonList : List Json → List Json
  | [] => []
  | x :: xs => canon x :: canonList xs

/-- Canonicalize every value of an object. -/
def canonObj : List (String × Json) → List (String × Json)
  | [] => []
  | (k, v) :: xs => (k, canon v) :: canonObj xs

end

end DTC

namespace HefeiCenter

open DTC

/-- Per-value step of `flatten_record`: container values are replaced by
their `json.dumps` serialization, scalars pass through. -/
def flat1 (v : Json) : Json :=
  match v with
  | Json.obj _ => Json.str (dumps v)
  | Json.arr _ => Json.str (dumps v)
  | _ => v

/-- Embedding of `flatten_record` (src/安徽/合肥中心.py, lines 147-154;
the identical function also appears in src/合肥数据流通/cl.py, lines
75-83): each dict or list value is serialized with
`json.dumps(v, ensure_ascii=False)`, every other value is kept. -/
def flatten_record (rec : List (String × Json)) : List (String × Json) :=
  rec.map fun p => (p.1, flat1 p.2)

end HefeiCenter

namespace DTC

/-- Keys of a Python dict modelled as an association list. -/
def keysOf (r : List (String × Json)) : List String := r.map Prod.fst

/-- Insert a string into a sorted list of strings. -/
def insertSortedStr (x : String) : List String → List String
  | [] => [x]
  | y :: ys => if strLe x y then x :: y :: ys else y :: insertSortedStr x ys

/-- Python `sorted(...)` over strings. -/
def sortStrs (l : List String) : List String := l.foldr insertSortedStr []

end DTC

namespace HefeiFlow

open DTC

/-- A flat row as written to the CSV. -/
abbrev Row := List (String × DTC.Json)

/-- Embedding of the header computation in `scrape_all`
(src/合肥数据流通/cl.py, line 176):
`fieldnames = sorted({k for row in all_rows for k in row.keys()})` — the
sorted union of all row keys of the whole crawl. -/
def fieldnames_union (rows : List Row) : List String :=
  sortStrs ((rows.map keysOf).flatten.dedup)

/-- One CSV cell as `csv.DictWriter` produces it: the row's value for the
column, or the empty `restval` when the row lacks the column. -/
def cellValue (r : Row) (k : String) : String :=
  match lookupJ r k with
  | some v => pyStr v
  | none => ""

/-- One CSV data line: a cell for every header column. -/
def writeRow (fieldnames : List String) (r : Row) : List String :=
  fieldnames.map (cellValue r)

end HefeiFlow

namespace HefeiCenter

open DTC

/-- Embedding of the streaming header choice in `scrape_all`
(src/安徽/合肥中心.py, lines 289-295): the `csv.DictWriter` is created on
the first row with `fieldnames = sorted(row.keys())` and
`extrasaction="ignore"`, so the header is the sorted key list of the
first row only. -/
def stream_fieldnames (rows : List (List (String × DTC.Json))) : List String :=
  match rows with
  | [] => []
  | r :: _ => DTC.sortStrs (DTC.keysOf r)

end HefeiCenter

namespace DTC

/-- Python dict assignment `d[k] = v` on an association list: replace in
place if present, append otherwise. -/
def setKeyJ : List (String × Json) → String → Json → List (String × Json)
  | [], k, v => [(k, v)]
  | (k', v') :: t, k, v => if k' = k then (k, v) :: t else (k', v') :: setKeyJ t k v

mutual

/-- Structural equality of JSON values, used for Python `key in seen` on
the string/tuple row identities of the Hubei crawler (dicts are
unhashable in Python and never occur as keys, so insertion-order
sensitivity of the `obj` case is irrelevant there). -/
def beqJ : Json → Json → Bool
  | Json.null, Json.null => true
  | Json.bool a, Json.bool b => a == b
  | Json.num a, Json.num b => a == b
  | Json.str a, Json.str b => a == b
  | Json.arr a, Json.arr b => beqArr a b
  | Json.obj a, Json.obj b => beqObj a b
  | _, _ => false

/-- Element-wise equality of JSON arrays. -/
def beqArr : List Json → List Json → Bool
  | [], [] => true
  | a :: as, b :: bs => beqJ a b && beqArr as bs
  | _, _ => false

/-- Entry-wise equality of JSON objects. -/
def beqObj : List (String × Json) → List (String × Json) → Bool
  | [], [] => true
  | (k, v) :: as, (k', v') :: bs => k == k' && beqJ v v' && beqObj as bs
  | _, _ => false

end

/-- Observable effects of a crawl loop, in program order: a row of page
`page` appended to the output (jsonl append / generator yield consumed
by the CSV writer), or a checkpoint write announcing `next` as the next
page to fetch. -/
inductive Ev where
  | row (page : Nat) (r : List (String × Json)) : Ev
  | save (next : Nat) : Ev

/-- A trace persists checkpoints only after fully-processed pages: every
checkpoint write announcing next page `n` is followed only by row
appends of pages `≥ n` — no row of an already-checkpointed page is still
pending when the checkpoint hits the disk. -/
def savesSafe : List Ev → Prop
  | [] => True
  | Ev.row _ _ :: t => savesSafe t
  | Ev.save n :: t => (∀ p r, Ev.row p r ∈ t → n ≤ p) ∧ savesSafe t

/-- A trace `t` extends the already-emitted trace `t₀` with a
checkpoint-safe suffix whose row appends all belong to pages `≥ page`. -/
def goodFrom (t₀ : List Ev) (page : Nat) (t : List Ev) : Prop :=
  ∃ suf, t = t₀ ++ suf ∧ savesSafe suf ∧ ∀ p r, Ev.row p r ∈ suf → page ≤ p

end DTC

namespace HefeiFlow

open DTC

/-- What one successful `fetch_page` returns (src/合肥数据流通/cl.py,
lines 86-107): the `result.records` list and the `result` metadata
dict. -/
structure PageResp where
  records : List DTC.Json
  meta : List (String × DTC.Json)

/-- State of the `while` loop in `scrape_all` (src/合肥数据流通/cl.py,
lines 122-168), plus a counter of pages fetched so far. -/
structure FlowState where
  page_no : Nat
  total_pages : Option Int
  total_items : Option Int
  all_rows : List Row
  fetched : Nat

/-- The `for key in [...]` metadata probing in `scrape_all` (lines
143-149): keep an already-known value, else take the first candidate
field that holds an `int`. -/
def firstIntMeta (meta : List (String × DTC.Json)) (keys : List String)
    (cur : Option Int) : Option Int :=
  match cur with
  | some v => some v
  | none =>
    keys.foldl
      (fun acc key =>
        match acc with
        | some v => some v
        | none =>
          match DTC.lookupJ meta key with
          | some (DTC.Json.num n) => some n
          | _ => none)
      none

/-- Embedding of the pagination loop of `scrape_all`
(src/合肥数据流通/cl.py, lines 129-168), driven by a pure page server.
The loop stops on the `max_pages` guard, on a known `total_pages` being
passed, on an empty page, or once `total_items` rows have been
collected; there is no short-page (fewer than page-size) stop. -/
def flowLoop (server : Nat → PageResp) (start_page : Nat) (max_pages : Option Nat) :
    Nat → FlowState → FlowState
  | 0, st => st
  | fuel + 1, st =>
    let stopMax : Bool :=
      match max_pages with
      | some m => decide (st.page_no - start_page + 1 > m)
      | none => false
    let stopTp : Bool :=
      match st.total_pages with
      | some tp => decide ((st.page_no : Int) > tp)
      | none => false
    if stopMax then st
    else if stopTp then st
    else
      let resp := server st.page_no
      let st1 : FlowState := { st with fetched := st.fetched + 1 }
      let tp := firstIntMeta resp.meta ["pages", "totalPages", "pageCount"] st1.total_pages
      let ti := firstIntMeta resp.meta ["total", "totalCount", "count"] st1.total_items
      let st2 : FlowState := { st1 with total_pages := tp, total_items := ti }
      if resp.records.isEmpty then st2
      else
        let rows := st2.all_rows ++ resp.records.filterMap fun r =>
          match r with
          | DTC.Json.obj l => some (HefeiCenter.flatten_record l)
          | _ => none
        let st3 : FlowState := { st2 with all_rows := rows, page_no := st2.page_no + 1 }
        let stopTi : Bool :=
          match st3.total_items with
          | some t => decide ((st3.all_rows.length : Int) ≥ t)
          | none => false
        if stopTi then st3
        else flowLoop server start_page max_pages fuel st3

/-- The C4 scenario source with no pagination metadata: 25 records served
as pages of 10, 10 and 5, empty thereafter. -/
def srv25 : Nat → PageResp := fun p =>
  if p ≤ 2 then ⟨List.replicate 10 (DTC.Json.obj [("id", DTC.Json.num 1)]), []⟩
  else if p = 3 then ⟨List.replicate 5 (DTC.Json.obj [("id", DTC.Json.num 1)]), []⟩
  else ⟨[], []⟩

/-- The C4 scenario source additionally reporting the authoritative
`total = 25` in the page metadata. -/
def srv25t : Nat → PageResp := fun p =>
  if p ≤ 2 then
    ⟨List.replicate 10 (DTC.Json.obj [("id", DTC.Json.num 1)]), [("total", DTC.Json.num 25)]⟩
  else if p = 3 then
    ⟨List.replicate 5 (DTC.Json.obj [("id", DTC.Json.num 1)]), [("total", DTC.Json.num 25)]⟩
  else ⟨[], [("total", DTC.Json.num 25)]⟩

end HefeiFlow

namespace Beijing

/-- Why the `crawl_all` loop (src/北京/cl.py, lines 59-77) stopped:
which of its three exits fired. -/
inductive BStop where
  | emptyPage : BStop
  | shortPage : BStop
  | pageLimit : BStop

/-- State of the `crawl_all` loop, plus a counter of pages fetched and
the exit taken. -/
structure BState where
  page_num : Nat
  all_rows : List (List (String × DTC.Json))
  fetched : Nat
  stop : Option BStop

/-- Embedding of `normalize_record` (src/北京/cl.py, lines 48-57): a
`productKeywords` list is joined with `"|"`. -/
def normalize_record (rec : List (String × DTC.Json)) : List (String × DTC.Json) :=
  match DTC.lookupJ rec "productKeywords" with
  | some (DTC.Json.arr l) =>
    DTC.setKeyJ rec "productKeywords" (DTC.Json.str (String.intercalate "|" (l.map DTC.pyStr)))
  | _ => rec

/-- Embedding of the pagination loop of `crawl_all` (src/北京/cl.py,
lines 59-77): stop past `max_pages`, on an empty page, or — the
short-page heuristic — when a page returns strictly fewer records than
`page_size`. -/
def bLoop (server : Nat → List (List (String × DTC.Json))) (page_size max_pages : Nat) :
    Nat → BState → BState
  | 0, st => st
  | fuel + 1, st =>
    if st.page_num > max_pages then { st with stop := some BStop.pageLimit }
    else
      let lst := server st.page_num
      let st1 : BState := { st with fetched := st.fetched + 1 }
      if lst.isEmpty then { st1 with stop := some BStop.emptyPage }
      else
        let st2 : BState := { st1 with all_rows := st1.all_rows ++ lst.map normalize_record }
        if lst.length < page_size then { st2 with stop := some BStop.shortPage }
        else bLoop server page_size max_pages fuel { st2 with page_num := st2.page_num + 1 }

/-- The C4 scenario source for the Beijing driver: pages of 10, 10 and 5
records, empty thereafter. -/
def bsrv25 : Nat → List (List (String × DTC.Json)) := fun p =>
  if p ≤ 2 then List.replicate 10 [("id", DTC.Json.num 1)]
  else if p = 3 then List.replicate 5 [("id", DTC.Json.num 1)]
  else []

end Beijing

namespace HefeiCenter

open DTC

/-- An HTTP response as `fetch_page` observes it: status code,
content-type header, body text, and the result of `resp.json()` (`none`
when the body does not parse as JSON). -/
structure Resp where
  status : Nat
  content_type : String
  text : String
  json : Option DTC.Json

/-- Embedding of `is_likely_blocked` (src/安徽/合肥中心.py, lines
88-113): non-JSON content-type, unparseable body, or a dict body whose
`success` field `is False` are all classified as blocked, with the
source's reason strings. -/
def is_likely_blocked (r : Resp) : Bool × String :=
  let ct := DTC.lower r.content_type
  let text_head := DTC.lower (DTC.strTake r.text 300)
  if !(DTC.strContains ct "application/json") then
    if DTC.strContains text_head "<html" || DTC.strContains text_head "<!doctype html" then
      (true, "Non-JSON HTML response (ct=" ++ ct ++ ")")
    else (true, "Non-JSON response (ct=" ++ ct ++ ")")
  else
    match r.json with
    | none => (true, "JSON parse failed")
    | some d =>
      match d with
      | DTC.Json.obj l =>
        match DTC.getJ l "success" with
        | DTC.Json.bool false =>
          let msg := DTC.strTake
            (DTC.pyStr (DTC.pyOr (DTC.getJ l "msg")
              (DTC.pyOr (DTC.getJ l "message") (DTC.Json.str "")))) 120
          (true, "API success=false, msg=" ++ msg)
        | _ => (false, "")
      | _ => (false, "")

/-- Embedding of `fetch_page` (src/安徽/合肥中心.py, lines 116-144):
non-200 statuses, blocked responses and bodies without `success: true`
raise (modelled as `Except.error` with the source's message). -/
def fetch_page (r : Resp) : Except String DTC.Json :=
  if r.status ≠ 200 then
    Except.error ("HTTP " ++ toString r.status ++ ": " ++ DTC.strTake r.text 200)
  else
    let bl := is_likely_blocked r
    if bl.1 then
      Except.error ("Likely blocked/cookie expired: " ++ bl.2 ++ ". Body head: " ++
        DTC.strTake r.text 200)
    else
      match r.json with
      | none => Except.error "resp.json() raised"
      | some d =>
        match d with
        | DTC.Json.obj l =>
          match DTC.getJ l "success" with
          | DTC.Json.bool true => Except.ok d
          | _ => Except.error ("Unexpected JSON: " ++ DTC.strTake (DTC.dumps d) 300)
        | _ => Except.error ("Unexpected JSON: " ++ DTC.strTake (DTC.dumps d) 300)

/-- State of the `iter_records` loop (src/安徽/合肥中心.py, lines
185-252): current page, consecutive-empty-page counter, the last
checkpoint value written by `save_progress` (`none` if none was written
this run), and the rows yielded so far. -/
structure IterState where
  page_no : Nat
  seen_empty : Nat
  saved : Option Nat
  out : List (List (String × DTC.Json))
  trace : List DTC.Ev

/-- Embedding of the `iter_records` loop (src/安徽/合肥中心.py, lines
185-252) driven by a pure page server (the three in-loop retry attempts
of a pure server all see the same response, so they collapse into one
`fetch_page` call).  A fetch failure propagates as `Except.error`
carrying the loop state as it was when the page was attempted; a page is
followed by `save_progress(page_no + 1)`, then the `pages` metadata stop
check.  Non-dict `result` values (which would raise in the source) are
abstracted to the empty dict — no settled claim exercises them. -/
def iterLoop (server : Nat → Resp) (start_page : Nat) (max_pages : Option Nat) :
    Nat → IterState → Except (String × IterState) IterState
  | 0, st => Except.ok st
  | fuel + 1, st =>
    let stopMax : Bool :=
      match max_pages with
      | some m => decide (st.page_no - start_page + 1 > m)
      | none => false
    if stopMax then Except.ok st
    else
      match fetch_page (server st.page_no) with
      | Except.error e => Except.error (e, st)
      | Except.ok data =>
        let result : List (String × DTC.Json) :=
          match data with
          | DTC.Json.obj l =>
            match DTC.lookupJ l "result" with
            | some (DTC.Json.obj rl) => rl
            | _ => []
          | _ => []
        let records : List DTC.Json :=
          match DTC.lookupJ result "records" with
          | some (DTC.Json.arr rs) => rs
          | _ => []
        let pages := DTC.getJ result "pages"
        if records.isEmpty then
          let st1 : IterState := { st with seen_empty := st.seen_empty + 1 }
          if st1.seen_empty ≥ 2 then Except.ok st1
          else
            let st2 : IterState :=
              { st1 with
                saved := some (st1.page_no + 1)
                trace := st1.trace ++ [DTC.Ev.save (st1.page_no + 1)] }
            let stopPages : Bool :=
              match pages with
              | DTC.Json.null => false
              | p =>
                match CkptLoad.toIntPy p with
                | some n => decide (0 < n) && decide ((st2.page_no : Int) ≥ n)
                | none => false
            if stopPages then Except.ok st2
            else iterLoop server start_page max_pages fuel { st2 with page_no := st2.page_no + 1 }
        else
          let rows := records.filterMap (fun r =>
            match r with
            | DTC.Json.obj rl => some (flatten_record rl)
            | _ => none)
          let st1 : IterState :=
            { st with
              seen_empty := 0
              out := st.out ++ rows
              trace := st.trace ++ rows.map (DTC.Ev.row st.page_no) }
          let st2 : IterState :=
            { st1 with
              saved := some (st1.page_no + 1)
              trace := st1.trace ++ [DTC.Ev.save (st1.page_no + 1)] }
          let stopPages : Bool :=
            match pages with
            | DTC.Json.null => false
            | p =>
              match CkptLoad.toIntPy p with
              | some n => decide (0 < n) && decide ((st2.page_no : Int) ≥ n)
              | none => false
          if stopPages then Except.ok st2
          else iterLoop server start_page max_pages fuel { st2 with page_no := st2.page_no + 1 }

/-- The error message `fetch_page` raises on an HTTP-200 response whose
body declares business failure. -/
def businessErrMsg (r : Resp) (fields : List (String × DTC.Json)) : String :=
  "Likely blocked/cookie expired: " ++
    ("API success=false, msg=" ++
      DTC.strTake
        (DTC.pyStr (DTC.pyOr (DTC.getJ fields "msg")
          (DTC.pyOr (DTC.getJ fields "message") (DTC.Json.str "")))) 120) ++
    ". Body head: " ++ DTC.strTake r.text 200

/-- The C7 scenario response: HTTP 200, JSON content-type, body
`success: false, message: login required`. -/
def bizResp : Resp :=
  ⟨200, "application/json", "body",
    some (DTC.Json.obj [("success", DTC.Json.bool false),
      ("message", DTC.Json.str "login required")])⟩

/-- The effect trace a (finished or failed) `iter_records` run leaves
behind. -/
def traceOf : Except (String × IterState) IterState → List DTC.Ev
  | Except.ok s => s.trace
  | Except.error e => e.2.trace

end HefeiCenter

namespace HubeiLoop

/-- Row identity in `main` (src/湖北/cl.py, line 254):
`x.get("detail_url") or (x.get("title"), x.get("org"))`, the fallback
tuple modelled as a two-element array. -/
def itemKey (x : List (String × DTC.Json)) : DTC.Json :=
  DTC.pyOr (DTC.getJ x "detail_url")
    (DTC.Json.arr [DTC.getJ x "title", DTC.getJ x "org"])

/-- The per-item dedup-and-append body of `main` (src/湖北/cl.py, lines
252-259): items whose key is falsy or already seen are skipped; each
kept item is appended to the jsonl log (a `row` event of the current
page) and its key added to the seen-set. -/
def processItems (page : Nat) (seen : List DTC.Json) :
    List (List (String × DTC.Json)) → List DTC.Ev × List DTC.Json
  | [] => ([], seen)
  | x :: xs =>
    let key := itemKey x
    if !(DTC.truthy key) || seen.any (DTC.beqJ key) then
      processItems page seen xs
    else
      let pr := processItems page (key :: seen) xs
      (DTC.Ev.row page x :: pr.1, pr.2)

/-- The crawl loop of `main` (src/湖北/cl.py, lines 247-269) as its
effect trace: per page, first the kept rows are appended, then
`save_checkpoint(page_index + 1, seen)` runs — the save event — and the
loop continues while `goto_next_page` succeeds. -/
def mainLoop (server : Nat → List (List (String × DTC.Json))) (hasNext : Nat → Bool) :
    Nat → Nat → List DTC.Json → List DTC.Ev
  | 0, _, _ => []
  | fuel + 1, page, seen =>
    let pr := processItems page seen (server page)
    pr.1 ++ DTC.Ev.save (page + 1) ::
      (if hasNext page then mainLoop server hasNext fuel (page + 1) pr.2 else [])

end HubeiLoop

namespace Anhui

/-- Text of one tag entry in `_flatten_product_tags` (src/安徽/cl.py,
lines 58-63): for dict entries the first truthy of
`tagId`/`proCommonTagId`/`proTagId` (else `""`), for anything else
`str(t)`. -/
def tagText (t : DTC.Json) : String :=
  match t with
  | DTC.Json.obj d =>
    DTC.pyStr (DTC.pyOr (DTC.getJ d "tagId")
      (DTC.pyOr (DTC.getJ d "proCommonTagId")
        (DTC.pyOr (DTC.getJ d "proTagId") (DTC.Json.str ""))))
  | _ => DTC.pyStr t

/-- The strip-drop-dedup loop of `_flatten_product_tags` (src/安徽/cl.py,
lines 65-72): strip each tag, drop empties and already-seen tags,
keep first occurrences in order. -/
def dedupKeepGo (seen out : List String) : List String → List String
  | [] => out
  | x :: xs =>
    let xt := DTC.pyStrip x
    if xt = "" ∨ xt ∈ seen then dedupKeepGo seen out xs
    else dedupKeepGo (xt :: seen) (out ++ [xt]) xs

/-- The dedup loop started from empty accumulators. -/
def dedupKeep (l : List String) : List String := dedupKeepGo [] [] l

/-- Embedding of `_flatten_product_tags` (src/安徽/cl.py, lines 50-74):
falsy values give `""`, a list is rendered as the `"|"`-join of its
stripped, de-duplicated, order-preserved tag texts, anything else is
`str(...)`-ed. -/
def flatten_product_tags (product_tag : DTC.Json) : String :=
  if !(DTC.truthy product_tag) then ""
  else
    match product_tag with
    | DTC.Json.arr l => String.intercalate "|" (dedupKeep (l.map tagText))
    | _ => DTC.pyStr product_tag

end Anhui

namespace Shanghai

/-- Embedding of `normalize_item` (src/上海/cl.py, lines 85-102): for
each of the fields `aiTag`, `sectorName`, `zoneName`, a list value is
joined with `"|"` (no de-duplication), a missing or `None` value becomes
`""`, anything else is `str(...)`-ed. -/
def normalize_item (item : List (String × DTC.Json)) : List (String × DTC.Json) :=
  ["aiTag", "sectorName", "zoneName"].foldl
    (fun out k =>
      match DTC.lookupJ out k with
      | some (DTC.Json.arr l) =>
        DTC.setKeyJ out k (DTC.Json.str (String.intercalate "|" (l.map DTC.pyStr)))
      | some DTC.Json.null => DTC.setKeyJ out k (DTC.Json.str "")
      | none => DTC.setKeyJ out k (DTC.Json.str "")
      | some v => DTC.setKeyJ out k (DTC.Json.str (DTC.pyStr v)))
    item

end Shanghai

namespace Tag

/-- JSON values for the classifier script (src/数据清洗/tag.py).
Numbers are rationals, so confidence values like `0.73` are exact. -/
inductive J where
  | null : J
  | bool (b : Bool) : J
  | num (q : ℚ) : J
  | str (s : String) : J
  | arr (l : List J) : J
  | obj (l : List (String × J)) : J

/-- Dict lookup for classifier JSON values. -/
def lookupJT : List (String × J) → String → Option J
  | [], _ => none
  | (k', v) :: t, k => if k' = k then some v else lookupJT t k

/-- Python `str(v)` on classifier JSON values.  Containers (which no
target label can equal, whatever their Python repr) are abstracted to a
fixed non-label text. -/
def pyStrT : J → String
  | J.null => "None"
  | J.bool true => "True"
  | J.bool false => "False"
  | J.num q => toString q
  | J.str s => s
  | _ => "[object]"

/-- The closed label set `TARGET_CATEGORIES` (src/数据清洗/tag.py, lines
12-23). -/
def TARGET_CATEGORIES : List String :=
  ["政务/公共服务", "金融/征信", "交通/出行", "工业/制造/能源", "医疗/健康",
   "零售/消费", "位置/地图/时空", "互联网/内容/媒体", "环境/气象", "其他（不可分类的）"]

/-- Embedding of `normalize_category` (src/数据清洗/tag.py, lines
61-63): strip, then keep the label if it is one of the targets, else the
fallback "unclassifiable" label. -/
def normalize_category (cat : String) : String :=
  let c := DTC.pyStrip cat
  if c ∈ TARGET_CATEGORIES then c else "其他（不可分类的）"

/-- Digits of a decimal literal as a natural number. -/
def digitsNat (l : List Char) : Nat :=
  l.foldl (fun a c => a * 10 + (c.toNat - 48)) 0

/-- Parse the body (sign removed) of a Python `float(...)` literal:
`digits`, `digits.digits`, `.digits` or `digits.`.  Exponent forms are
not modelled (no claim exercises them). -/
def parseDecimal (l : List Char) : Option ℚ :=
  let ip := l.takeWhile Char.isDigit
  let rest := l.drop ip.length
  match rest with
  | [] => if ip.isEmpty then none else some (digitsNat ip : ℚ)
  | '.' :: fp =>
    if fp.all Char.isDigit ∧ (¬ ip.isEmpty ∨ ¬ fp.isEmpty) then
      some ((digitsNat ip : ℚ) + (digitsNat fp : ℚ) / ((10 : ℚ) ^ fp.length))
    else none
  | _ => none

/-- Python `float(s)` on a string.  `inf`/`nan` literals are represented
by huge rationals whose clamped value coincides with what CPython's
`max(0.0, min(1.0, x))` produces for them. -/
def parseFloatStr (s : String) : Option ℚ :=
  let t := (DTC.lower (DTC.pyStrip s)).data
  let signed : Bool × List Char :=
    match t with
    | '-' :: r => (true, r)
    | '+' :: r => (false, r)
    | r => (false, r)
  let neg := signed.1
  let body := signed.2
  if body = ['n', 'a', 'n'] then some ((10 : ℚ) ^ 9)
  else if body = ['i', 'n', 'f'] ∨ body = ['i', 'n', 'f', 'i', 'n', 'i', 't', 'y'] then
    some (if neg then -((10 : ℚ) ^ 9) else (10 : ℚ) ^ 9)
  else (parseDecimal body).map fun q => if neg then -q else q

/-- Python `float(x)` on classifier JSON values: numbers pass through,
booleans count 0/1, numeric strings parse, everything else raises
(modelled as `none`). -/
def toFloatT : J → Option ℚ
  | J.num q => some q
  | J.bool b => some (if b then 1 else 0)
  | J.str s => parseFloatStr s
  | _ => none

/-- What one service call attempt yields: the SDK raised (with the
exception's text), or it answered with `message.content` (possibly
`None`). -/
inductive Reply where
  | raised (msg : String) : Reply
  | answered (content : Option String) : Reply

/-- Embedding of `is_retryable_error` (src/数据清洗/tag.py, lines
66-80): keyword search in the lowered exception text. -/
def is_retryable_error (msg : String) : Bool :=
  ["429", "rate limit", "too many requests", "timeout", "timed out",
   "temporarily", "temporary", "connection", "network", "server", "502",
   "503", "504", "empty content", "invalid json"].any
    fun k => DTC.strContains (DTC.lower msg) k

/-- The result dict `call_deepseek_json` returns (src/数据清洗/tag.py,
lines 124-130 and 141-147). -/
structure ClassResult where
  mapped_category : String
  confidence : ℚ
  reason : String
  raw_json : String
  error : String

/-- The per-attempt body of `call_deepseek_json` up to a parsed dict
(src/数据清洗/tag.py, lines 96-113): a raised SDK call, an empty
(stripped) content, or a `safe_get_json` failure are errors with the
source's exception texts; otherwise the content and its dict. -/
def attemptContent (parse : String → Option J) (r : Reply) :
    Except String (String × List (String × J)) :=
  match r with
  | Reply.raised msg => Except.error msg
  | Reply.answered c =>
    let content := DTC.pyStrip (c.getD "")
    if content = "" then Except.error "empty content"
    else
      match parse content with
      | some (J.obj l) => Except.ok (content, l)
      | _ => Except.error ("invalid json: " ++ DTC.strTake content 160)

/-- The successful-result construction of `call_deepseek_json`
(src/数据清洗/tag.py, lines 115-130): normalized label, truncated
reason, confidence converted with `float(...)` (0.0 on failure) and
clamped into `[0, 1]` by `max(0.0, min(1.0, confidence))`. -/
def buildResult (content : String) (l : List (String × J)) : ClassResult :=
  let mapped := normalize_category (pyStrT ((lookupJT l "mapped_category").getD (J.str "")))
  let reason := DTC.strTake (pyStrT ((lookupJT l "reason").getD (J.str ""))) 60
  let conf0 : ℚ :=
    match toFloatT ((lookupJT l "confidence").getD (J.num 0)) with
    | some q => q
    | none => 0
  ⟨mapped, max 0 (min 1 conf0), reason, content, ""⟩

/-- The total-failure fallback result of `call_deepseek_json`
(src/数据清洗/tag.py, lines 141-147). -/
def fallbackResult (lastErr : Option String) : ClassResult :=
  { mapped_category := "其他（不可分类的）"
    confidence := 0
    reason := "调用/解析失败：" ++
      DTC.strTake (match lastErr with | some m => m | none => "None") 40
    raw_json := ""
    error := match lastErr with | some m => DTC.strTake m 200 | none => "unknown" }

/-- The retry loop of `call_deepseek_json` (src/数据清洗/tag.py, lines
94-139): on an attempt error, retry while attempts remain and the error
is retryable, else fall through to the fallback result. -/
def callGo (parse : String → Option J) (replies : Nat → Reply) (max_retries : Nat) :
    Nat → Nat → Option String → ClassResult
  | 0, _, lastErr => fallbackResult lastErr
  | fuel + 1, attempt, _ =>
    match attemptContent parse (replies attempt) with
    | Except.error msg =>
      if attempt < max_retries ∧ is_retryable_error msg then
        callGo parse replies max_retries fuel (attempt + 1) (some msg)
      else fallbackResult (some msg)
    | Except.ok (content, l) => buildResult content l

/-- Embedding of `call_deepseek_json` (src/数据清洗/tag.py, lines
83-147), driven by a parse oracle for `json.loads` and the sequence of
per-attempt service replies.  `range(1, max_retries + 1)` is empty for
`max_retries = 0`, leaving `last_err = None`. -/
def call_deepseek_json (parse : String → Option J) (replies : Nat → Reply)
    (max_retries : Nat) : ClassResult :=
  if max_retries = 0 then fallbackResult none
  else callGo parse replies max_retries max_retries 1 none

/-- A reply is "bad" for C9 when the attempt yields no parsed dict
(raised, empty, unparseable, or non-dict JSON), or the dict's
`mapped_category` is not one of the target labels. -/
def replyBad (parse : String → Option J) (r : Reply) : Prop :=
  match attemptContent parse r with
  | Except.error _ => True
  | Except.ok (_, l) =>
    DTC.pyStrip (pyStrT ((lookupJT l "mapped_category").getD (J.str ""))) ∉ TARGET_CATEGORIES

/-- A concrete parse oracle for the C9/C10 witnesses: `"RESP"` parses to
a dict with `mapped_category: "nonexistent"`. -/
def parseNx : String → Option J := fun s =>
  if s = "RESP" then
    some (J.obj [("mapped_category", J.str "nonexistent"), ("confidence", J.num 2)])
  else none

/-- A concrete reply sequence for the C9/C10 witnesses: every attempt
answers `"RESP"`. -/
def repliesNx : Nat → Reply := fun _ => Reply.answered (some "RESP")

end Tag

namespace Guangdong

open DTC

theorem runDedup_cons (st : DedupState) (r : Row) (rows : List Row) :
    runDedup st (r :: rows) = runDedup (mainStep st r) rows := rfl

theorem emittedCount_append (out1 out2 : List Row) (k : String) :
    emittedCount (out1 ++ out2) k = emittedCount out1 k + emittedCount out2 k := by
  simp [emittedCount, List.filter_append]

theorem runDedup_seen_fixed (rows : List Row) (st : DedupState) (k : String)
    (h : k ∈ st.seen) :
    emittedCount (runDedup st rows).out k = emittedCount st.out k := by
  induction rows generalizing st with
  | nil => rfl
  | cons r rows ih =>
    rw [runDedup_cons]
    by_cases hc : dedup_key r = "" ∨ dedup_key r ∈ st.seen
    · rw [show mainStep st r = st by simp [mainStep, hc]]
      exact ih st h
    · have hne : dedup_key r ≠ k := by
        intro he
        exact hc (Or.inr (he ▸ h))
      have hstep : mainStep st r =
          ⟨dedup_key r :: st.seen, st.out ++ [r]⟩ := by
        simp [mainStep, hc]
      rw [hstep, ih _ (List.mem_cons_of_mem _ h)]
      simp [emittedCount_append, emittedCount, hne]

theorem runDedup_count_le (rows : List Row) (st : DedupState) (k : String) :
    emittedCount (runDedup st rows).out k ≤
      emittedCount st.out k + (if k ∈ st.seen then 0 else 1) := by
  induction rows generalizing st with
  | nil =>
    exact Nat.le_add_right _ _
  | cons r rows ih =>
    rw [runDedup_cons]
    by_cases hc : dedup_key r = "" ∨ dedup_key r ∈ st.seen
    · rw [show mainStep st r = st by simp [mainStep, hc]]
      exact ih st
    · have hstep : mainStep st r =
          ⟨dedup_key r :: st.seen, st.out ++ [r]⟩ := by
        simp [mainStep, hc]
      rw [hstep]
      by_cases hk : dedup_key r = k
      · have hkseen : k ∈ dedup_key r :: st.seen := by
          exact hk ▸ List.mem_cons_self _ _
        have := runDedup_seen_fixed rows ⟨dedup_key r :: st.seen, st.out ++ [r]⟩ k hkseen
        rw [this]
        have hnot : ¬ k ∈ st.seen := fun hm => hc (Or.inr (hk ▸ hm))
        simp [emittedCount_append, emittedCount, hk, hnot]
      · have hcalc := ih ⟨dedup_key r :: st.seen, st.out ++ [r]⟩
        have hmem : (k ∈ dedup_key r :: st.seen) ↔ (k ∈ st.seen) := by
          constructor
          · intro hm
            rcases List.mem_cons.mp hm with he | hm
            · exact absurd he.symm hk
            · exact hm
          · exact fun hm => List.mem_cons_of_mem _ hm
        have hout : emittedCount (st.out ++ [r]) k = emittedCount st.out k := by
          simp [emittedCount_append, emittedCount, hk]
        calc emittedCount (runDedup ⟨dedup_key r :: st.seen, st.out ++ [r]⟩ rows).out k
            ≤ emittedCount (st.out ++ [r]) k + (if k ∈ dedup_key r :: st.seen then 0 else 1) := hcalc
          _ = emittedCount st.out k + (if k ∈ st.seen then 0 else 1) := by
              rw [hout]
              by_cases hs : k ∈ st.seen <;> simp [hs, hmem]

end Guangdong

/-- C1: for every row list, every initial seen-set and every non-empty
row identity, the dedup loop emits a row with that identity at most once;
and an identity already in the seen-set at the start of the (possibly
resumed) crawl is never emitted at all. -/
theorem dedup_emits_at_most_once (rows : List Guangdong.Row) (seen₀ : List String)
    (k : String) (hk : k ≠ "") :
    Guangdong.emittedCount (Guangdong.runDedup ⟨seen₀, []⟩ rows).out k ≤ 1 ∧
    (k ∈ seen₀ → Guangdong.emittedCount (Guangdong.runDedup ⟨seen₀, []⟩ rows).out k = 0) := by
  constructor
  · have h := Guangdong.runDedup_count_le rows ⟨seen₀, []⟩ k
    have h0 : Guangdong.emittedCount ([] : List Guangdong.Row) k = 0 := rfl
    rw [h0] at h
    calc Guangdong.emittedCount (Guangdong.runDedup ⟨seen₀, []⟩ rows).out k
        ≤ 0 + (if k ∈ seen₀ then 0 else 1) := h
      _ ≤ 1 := by split <;> omega
  · intro hmem
    have h := Guangdong.runDedup_seen_fixed rows ⟨seen₀, []⟩ k hmem
    simpa [Guangdong.emittedCount] using h

/-- Witness for C1 at a concrete input: two rows carrying the same
product id, started from an empty seen-set. -/
theorem dedup_emits_at_most_once_wit :
    Guangdong.emittedCount
      (Guangdong.runDedup ⟨[], []⟩
        [[("产品ID", DTC.Json.str "7")], [("产品ID", DTC.Json.str "7")]]).out "7" ≤ 1 :=
  (dedup_emits_at_most_once
    [[("产品ID", DTC.Json.str "7")], [("产品ID", DTC.Json.str "7")]] [] "7" (by decide)).1

namespace Ckpt

open DTC

theorem fsGet_fsSet_self (fs : Fs) (p c : String) : fsGet (fsSet fs p c) p = some c := by
  simp [fsGet, fsSet]

theorem fsGet_fsSet_ne (fs : Fs) (p c q : String) (h : p ≠ q) :
    fsGet (fsSet fs p c) q = fsGet fs q := by
  simp [fsGet, fsSet, h]

theorem tmp_path_ne (p : String) : p ++ ".tmp" ≠ p := by
  intro h
  have hlen := congrArg String.length h
  rw [String.length_append] at hlen
  have h4 : (".tmp" : String).length = 4 := rfl
  omega

end Ckpt

/-- Atomicity half of C2: every file system observable at any crash
point of `save_progress`'s write-temp-then-rename sequence shows the
checkpoint file either with its previous content or with the complete
new content — never partially written. -/
theorem save_progress_atomic (fs : Ckpt.Fs) (path content : String) (st : Ckpt.Fs)
    (hst : st ∈ Ckpt.crashStates fs (Ckpt.save_progress_ops path content)) :
    Ckpt.fsGet st path = Ckpt.fsGet fs path ∨ Ckpt.fsGet st path = some content := by
  have hne : path ++ ".tmp" ≠ path := Ckpt.tmp_path_ne path
  have hA : Ckpt.applyOp (Ckpt.fsSet fs (path ++ ".tmp") content)
      (Ckpt.FsOp.replace (path ++ ".tmp") path) =
      Ckpt.fsSet (Ckpt.fsDel (Ckpt.fsSet fs (path ++ ".tmp") content) (path ++ ".tmp"))
        path content := by
    simp [Ckpt.applyOp, Ckpt.fsGet_fsSet_self]
  have hw : Ckpt.applyOp fs (Ckpt.FsOp.write (path ++ ".tmp") content) =
      Ckpt.fsSet fs (path ++ ".tmp") content := rfl
  simp only [Ckpt.save_progress_ops, Ckpt.crashStates, Ckpt.opCrashStates, hw] at hst
  rcases List.mem_append.mp hst with h1 | h2
  · rcases List.mem_map.mp h1 with ⟨n, _, rfl⟩
    exact Or.inl (Ckpt.fsGet_fsSet_ne _ _ _ _ hne)
  · rcases List.mem_append.mp h2 with h3 | h4
    · rcases List.mem_cons.mp h3 with rfl | h5
      · exact Or.inl (Ckpt.fsGet_fsSet_ne _ _ _ _ hne)
      · rcases List.mem_cons.mp h5 with rfl | h6
        · rw [hA]
          exact Or.inr (Ckpt.fsGet_fsSet_self _ _ _)
        · cases h6
    · rcases List.mem_cons.mp h4 with rfl | h7
      · rw [hA]
        exact Or.inr (Ckpt.fsGet_fsSet_self _ _ _)
      · cases h7

theorem savesSafe_cons_save (n : Nat) (t : List DTC.Ev)
    (h1 : ∀ p r, DTC.Ev.row p r ∈ t → n ≤ p) (h2 : DTC.savesSafe t) :
    DTC.savesSafe (DTC.Ev.save n :: t) := ⟨h1, h2⟩

theorem savesSafe_append_rows (l₁ l₂ : List DTC.Ev)
    (h : ∀ e ∈ l₁, ∃ p r, e = DTC.Ev.row p r) :
    DTC.savesSafe (l₁ ++ l₂) ↔ DTC.savesSafe l₂ := by
  induction l₁ with
  | nil => simp
  | cons e t ih =>
    obtain ⟨p, r, rfl⟩ := h e (List.mem_cons_self _ _)
    rw [List.cons_append]
    show DTC.savesSafe (t ++ l₂) ↔ DTC.savesSafe l₂
    exact ih fun e he => h e (List.mem_cons_of_mem _ he)

theorem processItems_rows (page : Nat) (items : List (List (String × DTC.Json))) :
    ∀ (seen : List DTC.Json), ∀ e ∈ (HubeiLoop.processItems page seen items).1,
      ∃ r, e = DTC.Ev.row page r := by
  induction items with
  | nil =>
    intro seen e he
    simp [HubeiLoop.processItems] at he
  | cons x xs ih =>
    intro seen e he
    simp only [HubeiLoop.processItems] at he
    split at he
    · exact ih seen e he
    · rcases List.mem_cons.mp he with rfl | hmem
      · exact ⟨x, rfl⟩
      · exact ih _ e hmem

theorem mainLoop_row_ge (server : Nat → List (List (String × DTC.Json)))
    (hasNext : Nat → Bool) :
    ∀ (fuel page : Nat) (seen : List DTC.Json) (p : Nat) (r : List (String × DTC.Json)),
      DTC.Ev.row p r ∈ HubeiLoop.mainLoop server hasNext fuel page seen → page ≤ p := by
  intro fuel
  induction fuel with
  | zero =>
    intro page seen p r h
    simp [HubeiLoop.mainLoop] at h
  | succ fuel ih =>
    intro page seen p r h
    simp only [HubeiLoop.mainLoop] at h
    rcases List.mem_append.mp h with h1 | h2
    · obtain ⟨r', hr⟩ := processItems_rows page (server page) seen _ h1
      injection hr with hp hr2
      exact hp ▸ le_refl page
    · rcases List.mem_cons.mp h2 with heq | h3
      · exact DTC.Ev.noConfusion heq
      · split at h3
        · exact Nat.le_of_succ_le (ih (page + 1) _ p r h3)
        · simp at h3

theorem mainLoop_savesSafe (server : Nat → List (List (String × DTC.Json)))
    (hasNext : Nat → Bool) :
    ∀ (fuel page : Nat) (seen : List DTC.Json),
      DTC.savesSafe (HubeiLoop.mainLoop server hasNext fuel page seen) := by
  intro fuel
  induction fuel with
  | zero =>
    intro page seen
    exact trivial
  | succ fuel ih =>
    intro page seen
    simp only [HubeiLoop.mainLoop]
    rw [savesSafe_append_rows _ _ (fun e he =>
      (processItems_rows page (server page) seen e he).elim fun r hr => ⟨page, r, hr⟩)]
    refine savesSafe_cons_save _ _ ?_ ?_
    · intro p r hm
      split at hm
      · exact mainLoop_row_ge server hasNext fuel (page + 1) _ p r hm
      · simp at hm
    · split
      · exact ih (page + 1) _
      · exact trivial

theorem goodFrom_nil (t₀ : List DTC.Ev) (page : Nat) : DTC.goodFrom t₀ page t₀ :=
  ⟨[], by simp, trivial, by simp⟩

theorem goodFrom_stop_save (t₀ : List DTC.Ev) (page : Nat) :
    DTC.goodFrom t₀ page (t₀ ++ [DTC.Ev.save (page + 1)]) :=
  ⟨[DTC.Ev.save (page + 1)], rfl, ⟨by simp, trivial⟩, by intro p r h; simp at h⟩

theorem goodFrom_stop_rows_save (t₀ : List DTC.Ev) (page : Nat)
    (rows : List (List (String × DTC.Json))) :
    DTC.goodFrom t₀ page
      (t₀ ++ rows.map (DTC.Ev.row page) ++ [DTC.Ev.save (page + 1)]) := by
  refine ⟨rows.map (DTC.Ev.row page) ++ [DTC.Ev.save (page + 1)], ?_, ?_, ?_⟩
  · rw [List.append_assoc]
  · rw [savesSafe_append_rows _ _ (fun e he => by
      obtain ⟨r, -, hr⟩ := List.mem_map.mp he
      exact ⟨page, r, hr.symm⟩)]
    exact ⟨by simp, trivial⟩
  · intro p r hm
    rcases List.mem_append.mp hm with h1 | h1
    · obtain ⟨r', -, hr⟩ := List.mem_map.mp h1
      injection hr with hp hr2
      exact hp ▸ le_refl page
    · simp at h1

theorem goodFrom_save_step (t₀ : List DTC.Ev) (page : Nat) (t : List DTC.Ev)
    (h : DTC.goodFrom (t₀ ++ [DTC.Ev.save (page + 1)]) (page + 1) t) :
    DTC.goodFrom t₀ page t := by
  obtain ⟨suf, h1, h2, h3⟩ := h
  refine ⟨DTC.Ev.save (page + 1) :: suf, ?_, ?_, ?_⟩
  · rw [h1]
    simp
  · exact savesSafe_cons_save _ _ h3 h2
  · intro p r hm
    rcases List.mem_cons.mp hm with heq | hmem
    · exact DTC.Ev.noConfusion heq
    · exact Nat.le_of_succ_le (h3 p r hmem)

theorem goodFrom_rows_save_step (t₀ : List DTC.Ev) (page : Nat)
    (rows : List (List (String × DTC.Json))) (t : List DTC.Ev)
    (h : DTC.goodFrom (t₀ ++ rows.map (DTC.Ev.row page) ++ [DTC.Ev.save (page + 1)])
      (page + 1) t) :
    DTC.goodFrom t₀ page t := by
  obtain ⟨suf, h1, h2, h3⟩ := h
  refine ⟨rows.map (DTC.Ev.row page) ++ DTC.Ev.save (page + 1) :: suf, ?_, ?_, ?_⟩
  · rw [h1]
    simp
  · rw [savesSafe_append_rows _ _ (fun e he => by
      obtain ⟨r, -, hr⟩ := List.mem_map.mp he
      exact ⟨page, r, hr.symm⟩)]
    exact savesSafe_cons_save _ _ h3 h2
  · intro p r hm
    rcases List.mem_append.mp hm with h4 | h4
    · obtain ⟨r', -, hr⟩ := List.mem_map.mp h4
      injection hr with hp hr2
      exact hp ▸ le_refl page
    · rcases List.mem_cons.mp h4 with heq | hmem
      · exact DTC.Ev.noConfusion heq
      · exact Nat.le_of_succ_le (h3 p r hmem)

theorem iterLoop_trace_good (server : Nat → HefeiCenter.Resp) (sp : Nat)
    (mp : Option Nat) :
    ∀ (fuel : Nat) (st : HefeiCenter.IterState),
      DTC.goodFrom st.trace st.page_no
        (HefeiCenter.traceOf (HefeiCenter.iterLoop server sp mp fuel st)) := by
  intro fuel
  induction fuel with
  | zero =>
    intro st
    exact goodFrom_nil _ _
  | succ fuel ih =>
    intro st
    simp only [HefeiCenter.iterLoop]
    split
    · exact goodFrom_nil _ _
    · split
      · exact goodFrom_nil _ _
      · split
        · split
          · exact goodFrom_nil _ _
          · split
            · exact goodFrom_stop_save _ _
            · exact goodFrom_save_step _ _ _ (ih _)
        · split
          · exact goodFrom_stop_rows_save _ _ _
          · exact goodFrom_rows_save_step _ _ _ _ (ih _)

/-- C2 (amended): checkpoint saves by the Anhui/Hefei `save_progress`
are write-temp-then-rename atomic — every crash point shows the
checkpoint file with either the previous or the complete new content —
and both crawlers persist a checkpoint only after the corresponding page
has been fully processed: in every effect trace of the Hubei `main`
crawl loop and of the Anhui/Hefei `iter_records` loop, a checkpoint
write announcing next page `n` is followed only by row appends of pages
`≥ n`, so the checkpoint on disk always reflects fully-processed
pages. -/
theorem checkpoint_atomic_and_after_page :
    (∀ (fs : Ckpt.Fs) (path content : String) (st : Ckpt.Fs),
      st ∈ Ckpt.crashStates fs (Ckpt.save_progress_ops path content) →
      Ckpt.fsGet st path = Ckpt.fsGet fs path ∨ Ckpt.fsGet st path = some content) ∧
    (∀ (server : Nat → List (List (String × DTC.Json))) (hasNext : Nat → Bool)
      (fuel page : Nat) (seen : List DTC.Json),
      DTC.savesSafe (HubeiLoop.mainLoop server hasNext fuel page seen)) ∧
    (∀ (server : Nat → HefeiCenter.Resp) (sp : Nat) (mp : Option Nat) (fuel : Nat)
      (st : HefeiCenter.IterState), st.trace = [] →
      DTC.savesSafe (HefeiCenter.traceOf (HefeiCenter.iterLoop server sp mp fuel st))) := by
  refine ⟨save_progress_atomic, fun server hasNext fuel page seen =>
    mainLoop_savesSafe server hasNext fuel page seen, ?_⟩
  intro server sp mp fuel st h0
  obtain ⟨suf, h1, h2, -⟩ := iterLoop_trace_good server sp mp fuel st
  rw [h0, List.nil_append] at h1
  rw [h1]
  exact h2

/-- Witness for the amended C2: the completed `save_progress` leaves the
complete new checkpoint on disk, and concrete runs of both crawl loops
have checkpoint-after-page effect traces. -/
theorem checkpoint_atomic_and_after_page_wit :
    (Ckpt.fsGet [("p", "NEW"), ("p", "OLD")] "p" = Ckpt.fsGet [("p", "OLD")] "p" ∨
      Ckpt.fsGet [("p", "NEW"), ("p", "OLD")] "p" = some "NEW") ∧
    DTC.savesSafe (HubeiLoop.mainLoop
      (fun _ => [[("detail_url", DTC.Json.str "u1")]]) (fun _ => false) 2 1 []) ∧
    DTC.savesSafe (HefeiCenter.traceOf (HefeiCenter.iterLoop
      (fun _ => HefeiCenter.bizResp) 1 none 3 ⟨5, 0, some 5, [], []⟩)) :=
  ⟨checkpoint_atomic_and_after_page.1 [("p", "OLD")] "p" "NEW"
      [("p", "NEW"), ("p", "OLD")] (by decide),
    checkpoint_atomic_and_after_page.2.1
      (fun _ => [[("detail_url", DTC.Json.str "u1")]]) (fun _ => false) 2 1 [],
    checkpoint_atomic_and_after_page.2.2
      (fun _ => HefeiCenter.bizResp) 1 none 3 ⟨5, 0, some 5, [], []⟩ rfl⟩

/-- Counterexample to C2 as stated: the Hubei crawler's `save_checkpoint`
(src/湖北/cl.py, lines 47-50) writes the checkpoint file directly, so a
crash mid-write can leave the file holding `"NE"` — a truncated piece of
the new checkpoint `"NEW"`, equal to neither the old nor the new
content. -/
theorem save_checkpoint_not_atomic_cex :
    some "NE" ∈ Ckpt.crashTargetContents [("checkpoint.json", "OLD")]
      (Ckpt.save_checkpoint_ops "checkpoint.json" "NEW") "checkpoint.json" ∧
    ("NE" : String) ≠ "OLD" ∧ ("NE" : String) ≠ "NEW" := by
  refine ⟨by decide, by decide, by decide⟩

/-- Counterexample to C6 as stated: the Hubei crawler's `load_checkpoint`
raises on a corrupt (present but unparseable) checkpoint file instead of
returning the default checkpoint. -/
theorem load_checkpoint_corrupt_cex :
    CkptLoad.load_checkpoint (some CkptLoad.FileContent.corrupt) =
      Except.error "json.JSONDecodeError" ∧
    ∀ j, CkptLoad.load_checkpoint (some CkptLoad.FileContent.corrupt) ≠ Except.ok j :=
  ⟨rfl, fun _ h => Except.noConfusion h⟩

/-- C6 (amended): the Anhui/Hefei crawler's `load_progress` returns the
default page 1 when the checkpoint file is absent or corrupt and always
returns a page number of at least 1, and the Hubei crawler's
`load_checkpoint` returns the default checkpoint (page 1, empty
seen-set) when the file is absent. -/
theorem load_progress_defaults :
    CkptLoad.load_progress none = 1 ∧
    CkptLoad.load_progress (some CkptLoad.FileContent.corrupt) = 1 ∧
    (∀ c, 1 ≤ CkptLoad.load_progress c) ∧
    CkptLoad.load_checkpoint none =
      Except.ok (DTC.Json.obj [("page_index", DTC.Json.num 1), ("seen_keys", DTC.Json.arr [])]) := by
  refine ⟨rfl, rfl, ?_, rfl⟩
  intro c
  match c with
  | none => exact le_refl 1
  | some CkptLoad.FileContent.corrupt => exact le_refl 1
  | some (CkptLoad.FileContent.jsonOf j) =>
    cases j with
    | obj l =>
      simp only [CkptLoad.load_progress]
      cases CkptLoad.toIntPy ((DTC.lookupJ l "next_page_no").getD (DTC.Json.num 1)) with
      | none => exact le_refl 1
      | some n => exact le_max_left 1 n
    | null => exact le_refl 1
    | bool b => exact le_refl 1
    | num n => exact le_refl 1
    | str s => exact le_refl 1
    | arr l => exact le_refl 1

namespace HefeiCenter

open DTC

theorem lookupJ_flatten (r : List (String × Json)) (k : String) :
    lookupJ (flatten_record r) k = (lookupJ r k).map flat1 := by
  induction r with
  | nil => rfl
  | cons p t ih =>
    obtain ⟨k', v⟩ := p
    by_cases h : k' = k
    · simp [flatten_record, lookupJ, h]
    · simp only [flatten_record, List.map_cons, lookupJ, h, if_neg h] at *
      exact ih

end HefeiCenter

/-- C3 (amended): `flatten_record` is deterministic with respect to the
top-level mapping content of the record — two records assigning
(syntactically) identical values to the same keys flatten to flat rows
that are equal as mappings, whatever the top-level insertion order. -/
theorem flatten_record_deterministic (r1 r2 : List (String × DTC.Json))
    (h : ∀ k, DTC.lookupJ r1 k = DTC.lookupJ r2 k) :
    ∀ k, DTC.lookupJ (HefeiCenter.flatten_record r1) k =
      DTC.lookupJ (HefeiCenter.flatten_record r2) k := by
  intro k
  rw [HefeiCenter.lookupJ_flatten, HefeiCenter.lookupJ_flatten, h k]

/-- Witness for the amended C3: two records with the same two key-value
pairs in swapped insertion order flatten to mapping-equal flat rows. -/
theorem flatten_record_deterministic_wit :
    DTC.lookupJ (HefeiCenter.flatten_record
      [("a", DTC.Json.num 1), ("b", DTC.Json.num 2)]) "a" =
    DTC.lookupJ (HefeiCenter.flatten_record
      [("b", DTC.Json.num 2), ("a", DTC.Json.num 1)]) "a" := by
  refine flatten_record_deterministic _ _ ?_ "a"
  intro k
  by_cases h1 : "a" = k
  · by_cases h2 : "b" = k
    · exact absurd (h1.trans h2.symm) (by decide)
    · simp [DTC.lookupJ, h1, h2]
  · by_cases h2 : "b" = k <;> simp [DTC.lookupJ, h1, h2]

/-- Counterexample to C3 as stated: two records that are equal as Python
mappings (same pairs, nested object keys in different insertion order)
flatten to different flat rows, because `json.dumps` serializes the
nested object in insertion order. -/
theorem flatten_record_nested_order_cex :
    DTC.canon (DTC.Json.obj [("a", DTC.Json.obj [("x", DTC.Json.num 1), ("y", DTC.Json.num 2)])]) =
      DTC.canon (DTC.Json.obj [("a", DTC.Json.obj [("y", DTC.Json.num 2), ("x", DTC.Json.num 1)])]) ∧
    DTC.lookupJ (HefeiCenter.flatten_record
        [("a", DTC.Json.obj [("x", DTC.Json.num 1), ("y", DTC.Json.num 2)])]) "a" =
      some (DTC.Json.str "\x7b\"x\": 1, \"y\": 2\x7d") ∧
    DTC.lookupJ (HefeiCenter.flatten_record
        [("a", DTC.Json.obj [("y", DTC.Json.num 2), ("x", DTC.Json.num 1)])]) "a" =
      some (DTC.Json.str "\x7b\"y\": 2, \"x\": 1\x7d") ∧
    ("\x7b\"x\": 1, \"y\": 2\x7d" : String) ≠ "\x7b\"y\": 2, \"x\": 1\x7d" := by
  refine ⟨rfl, rfl, rfl, by decide⟩

theorem mem_insertSortedStr (x : String) (l : List String) (a : String) :
    a ∈ DTC.insertSortedStr x l ↔ a = x ∨ a ∈ l := by
  induction l with
  | nil => simp [DTC.insertSortedStr]
  | cons y ys ih =>
    simp only [DTC.insertSortedStr]
    split
    · simp [List.mem_cons]
    · simp only [List.mem_cons, ih]
      tauto

theorem mem_sortStrs (l : List String) (a : String) : a ∈ DTC.sortStrs l ↔ a ∈ l := by
  induction l with
  | nil => simp [DTC.sortStrs]
  | cons y ys ih =>
    have h : DTC.sortStrs (y :: ys) = DTC.insertSortedStr y (DTC.sortStrs ys) := rfl
    rw [h, mem_insertSortedStr]
    simp only [List.mem_cons, ih]

/-- C5 (amended): in the buffering writer of src/合肥数据流通/cl.py the
CSV header is exactly the union of all row keys of the crawl (no row's
key is dropped), and a row lacking a header column contributes an empty
cell for it. -/
theorem output_columns_union (rows : List HefeiFlow.Row) (k : String) :
    (k ∈ HefeiFlow.fieldnames_union rows ↔ ∃ r ∈ rows, k ∈ DTC.keysOf r) ∧
    (∀ r : HefeiFlow.Row, DTC.lookupJ r k = none → HefeiFlow.cellValue r k = "") := by
  constructor
  · rw [HefeiFlow.fieldnames_union, mem_sortStrs, List.mem_dedup, List.mem_flatten]
    constructor
    · rintro ⟨s, hs, hk⟩
      rcases List.mem_map.mp hs with ⟨r, hr, rfl⟩
      exact ⟨r, hr, hk⟩
    · rintro ⟨r, hr, hk⟩
      exact ⟨DTC.keysOf r, List.mem_map.mpr ⟨r, hr, rfl⟩, hk⟩
  · intro r h
    simp [HefeiFlow.cellValue, h]

/-- Witness for the amended C5: a key occurring only in the second row
still makes it into the header, and the first row's cell for it is
empty. -/
theorem output_columns_union_wit :
    "b" ∈ HefeiFlow.fieldnames_union
      [[("a", DTC.Json.num 1)], [("a", DTC.Json.num 2), ("b", DTC.Json.num 3)]] ∧
    HefeiFlow.cellValue [("a", DTC.Json.num 1)] "b" = "" := by
  constructor
  · exact (output_columns_union
      [[("a", DTC.Json.num 1)], [("a", DTC.Json.num 2), ("b", DTC.Json.num 3)]] "b").1.mpr
      ⟨[("a", DTC.Json.num 2), ("b", DTC.Json.num 3)], by simp, by simp [DTC.keysOf]⟩
  · exact (output_columns_union
      [[("a", DTC.Json.num 1)], [("a", DTC.Json.num 2), ("b", DTC.Json.num 3)]] "b").2
      [("a", DTC.Json.num 1)] (by simp [DTC.lookupJ])

/-- Counterexample to C5 as stated: the streaming writer of
src/安徽/合肥中心.py fixes the header from the first row's keys, so the
key `"b"` of the second row of this crawl is absent from the header and
its values are silently dropped (`extrasaction="ignore"`). -/
theorem stream_fieldnames_drop_cex :
    HefeiCenter.stream_fieldnames
      [[("a", DTC.Json.num 1)], [("a", DTC.Json.num 2), ("b", DTC.Json.num 3)]] = ["a"] ∧
    "b" ∉ HefeiCenter.stream_fieldnames
      [[("a", DTC.Json.num 1)], [("a", DTC.Json.num 2), ("b", DTC.Json.num 3)]] ∧
    "b" ∈ DTC.keysOf [("a", DTC.Json.num 2), ("b", DTC.Json.num 3)] := by
  refine ⟨rfl, by decide, by decide⟩

/-- Counterexample to C4 as stated: on the 10,10,5 scenario with no
pagination metadata, the cited driver (`scrape_all` of
src/合肥数据流通/cl.py) fetches 4 pages — it only stops when page 4
comes back empty, not after the short page 3 — so it does not fetch
exactly 3 pages. -/
theorem scrape_all_short_page_cex :
    (HefeiFlow.flowLoop HefeiFlow.srv25 1 none 10
      ⟨1, none, none, [], 0⟩).fetched = 4 ∧ (4 : Nat) ≠ 3 := by
  refine ⟨rfl, by decide⟩

/-- C4 (amended): the short-page stop lives in src/北京/cl.py, whose
driver fetches exactly 3 pages on the 10,10,5 scenario and exits through
the `len(lst) < page_size` branch; the cited src/合肥数据流通/cl.py
driver also fetches exactly 3 pages when the response carries the
authoritative `total = 25`, stopping because 25 rows were collected. -/
theorem pagination_stops_after_three_pages :
    (Beijing.bLoop Beijing.bsrv25 10 10000 10 ⟨1, [], 0, none⟩).fetched = 3 ∧
    (Beijing.bLoop Beijing.bsrv25 10 10000 10 ⟨1, [], 0, none⟩).stop =
      some Beijing.BStop.shortPage ∧
    (HefeiFlow.flowLoop HefeiFlow.srv25t 1 none 10
      ⟨1, none, none, [], 0⟩).fetched = 3 := by
  refine ⟨rfl, rfl, rfl⟩

theorem fetch_page_business (r : HefeiCenter.Resp) (fields : List (String × DTC.Json))
    (h200 : r.status = 200)
    (hct : DTC.strContains (DTC.lower r.content_type) "application/json" = true)
    (hjson : r.json = some (DTC.Json.obj fields))
    (hfail : DTC.getJ fields "success" = DTC.Json.bool false) :
    HefeiCenter.fetch_page r = Except.error (HefeiCenter.businessErrMsg r fields) := by
  have hbl : HefeiCenter.is_likely_blocked r =
      (true, "API success=false, msg=" ++
        DTC.strTake
          (DTC.pyStr (DTC.pyOr (DTC.getJ fields "msg")
            (DTC.pyOr (DTC.getJ fields "message") (DTC.Json.str "")))) 120) := by
    rw [HefeiCenter.is_likely_blocked]
    simp only [hct, hjson, hfail, Bool.not_true, Bool.false_eq_true, if_false]
  rw [HefeiCenter.fetch_page]
  simp [h200, hbl, HefeiCenter.businessErrMsg]

/-- C7: a page response with HTTP status 200 whose JSON body declares
business failure (`success: false`) makes `fetch_page` raise the
business/blocked error instead of returning records, and the
`iter_records` loop propagates that error with its state — in particular
the last saved checkpoint — exactly as it was before the failing page
was attempted. -/
theorem business_error_no_advance (server : Nat → HefeiCenter.Resp)
    (start_page fuel : Nat) (st : HefeiCenter.IterState)
    (fields : List (String × DTC.Json))
    (h200 : (server st.page_no).status = 200)
    (hct : DTC.strContains (DTC.lower (server st.page_no).content_type)
      "application/json" = true)
    (hjson : (server st.page_no).json = some (DTC.Json.obj fields))
    (hfail : DTC.getJ fields "success" = DTC.Json.bool false) :
    HefeiCenter.fetch_page (server st.page_no) =
      Except.error (HefeiCenter.businessErrMsg (server st.page_no) fields) ∧
    HefeiCenter.iterLoop server start_page none (fuel + 1) st =
      Except.error (HefeiCenter.businessErrMsg (server st.page_no) fields, st) := by
  have hfp := fetch_page_business (server st.page_no) fields h200 hct hjson hfail
  refine ⟨hfp, ?_⟩
  rw [HefeiCenter.iterLoop]
  simp only [hfp]
  rfl

/-- Witness for C7: the concrete `login required` business failure at
page 5, with checkpoint `saved = some 5` left untouched. -/
theorem business_error_no_advance_wit :
    HefeiCenter.iterLoop (fun _ => HefeiCenter.bizResp) 1 none 3 ⟨5, 0, some 5, [], []⟩ =
      Except.error (HefeiCenter.businessErrMsg HefeiCenter.bizResp
        [("success", DTC.Json.bool false), ("message", DTC.Json.str "login required")],
        ⟨5, 0, some 5, [], []⟩) :=
  (business_error_no_advance (fun _ => HefeiCenter.bizResp) 1 2 ⟨5, 0, some 5, [], []⟩
    [("success", DTC.Json.bool false), ("message", DTC.Json.str "login required")]
    rfl (by decide) rfl rfl).2

namespace Anhui

theorem dedupKeepGo_nodup (l : List String) (seen out : List String)
    (hnd : out.Nodup) (hsub : ∀ x ∈ out, x ∈ seen) :
    (dedupKeepGo seen out l).Nodup := by
  induction l generalizing seen out with
  | nil => simpa [dedupKeepGo] using hnd
  | cons x xs ih =>
    simp only [dedupKeepGo]
    by_cases hc : DTC.pyStrip x = "" ∨ DTC.pyStrip x ∈ seen
    · rw [if_pos hc]
      exact ih seen out hnd hsub
    · rw [if_neg hc]
      have hxnot : DTC.pyStrip x ∉ out := fun hmem => hc (Or.inr (hsub _ hmem))
      refine ih (DTC.pyStrip x :: seen) (out ++ [DTC.pyStrip x]) ?_ ?_
      · rw [List.nodup_append]
        refine ⟨hnd, List.nodup_singleton _, ?_⟩
        intro a ha hb
        rw [List.mem_singleton.mp hb] at ha
        exact hxnot ha
      · intro y hy
        rcases List.mem_append.mp hy with h | h
        · exact List.mem_cons_of_mem _ (hsub _ h)
        · rw [List.mem_singleton.mp h]
          exact List.mem_cons_self _ _

end Anhui

/-- Counterexample to C8 as stated: the Shanghai normalizer
`normalize_item` joins a tag list without de-duplication, so the record
with tags `["A","B","A"]` yields `"A|B|A"`, not the claimed `"A|B"`. -/
theorem normalize_item_no_dedup_cex :
    DTC.lookupJ (Shanghai.normalize_item
      [("aiTag", DTC.Json.arr [DTC.Json.str "A", DTC.Json.str "B", DTC.Json.str "A"])])
      "aiTag" = some (DTC.Json.str "A|B|A") ∧
    ("A|B|A" : String) ≠ "A|B" := by
  refine ⟨rfl, by decide⟩

/-- C8 (amended): the Anhui normalizer `_flatten_product_tags` does
render a scalar tag list de-duplicated and first-occurrence ordered —
`["A","B","A"]` gives `"A|B"`, and the kept tag list never holds a
duplicate — while the Shanghai `normalize_item` joins the list verbatim
(no de-duplication). -/
theorem tags_dedup_order :
    Anhui.flatten_product_tags
      (DTC.Json.arr [DTC.Json.str "A", DTC.Json.str "B", DTC.Json.str "A"]) = "A|B" ∧
    ∀ l : List String, (Anhui.dedupKeep l).Nodup := by
  refine ⟨rfl, ?_⟩
  intro l
  exact Anhui.dedupKeepGo_nodup l [] [] List.nodup_nil (by intro x hx; cases hx)

theorem normalize_category_mem (c : String) :
    Tag.normalize_category c ∈ Tag.TARGET_CATEGORIES := by
  by_cases h : DTC.pyStrip c ∈ Tag.TARGET_CATEGORIES
  · simp only [Tag.normalize_category]
    rw [if_pos h]
    exact h
  · simp only [Tag.normalize_category]
    rw [if_neg h]
    decide

theorem buildResult_mem (content : String) (l : List (String × Tag.J)) :
    (Tag.buildResult content l).mapped_category ∈ Tag.TARGET_CATEGORIES :=
  normalize_category_mem _

theorem fallbackResult_mem (e : Option String) :
    (Tag.fallbackResult e).mapped_category ∈ Tag.TARGET_CATEGORIES := by
  have h : (Tag.fallbackResult e).mapped_category = "其他（不可分类的）" := rfl
  rw [h]
  decide

theorem callGo_mem (parse : String → Option Tag.J) (replies : Nat → Tag.Reply) (mr : Nat) :
    ∀ fuel attempt lastErr,
      (Tag.callGo parse replies mr fuel attempt lastErr).mapped_category ∈
        Tag.TARGET_CATEGORIES := by
  intro fuel
  induction fuel with
  | zero => intro attempt lastErr; exact fallbackResult_mem _
  | succ fuel ih =>
    intro attempt lastErr
    rw [Tag.callGo]
    split
    · split
      · exact ih _ _
      · exact fallbackResult_mem _
    · exact buildResult_mem _ _

theorem callGo_fallback (parse : String → Option Tag.J) (replies : Nat → Tag.Reply)
    (mr : Nat) (hbad : ∀ n, Tag.replyBad parse (replies n)) :
    ∀ fuel attempt lastErr,
      (Tag.callGo parse replies mr fuel attempt lastErr).mapped_category =
        "其他（不可分类的）" := by
  intro fuel
  induction fuel with
  | zero => intro attempt lastErr; rfl
  | succ fuel ih =>
    intro attempt lastErr
    rw [Tag.callGo]
    split
    · split
      · exact ih _ _
      · rfl
    · next content l heq =>
      have hb : DTC.pyStrip
          (Tag.pyStrT ((Tag.lookupJT l "mapped_category").getD (Tag.J.str ""))) ∉
          Tag.TARGET_CATEGORIES := by
        have hb0 := hbad attempt
        unfold Tag.replyBad at hb0
        rw [heq] at hb0
        exact hb0
      show Tag.normalize_category
        (Tag.pyStrT ((Tag.lookupJT l "mapped_category").getD (Tag.J.str ""))) =
        "其他（不可分类的）"
      simp only [Tag.normalize_category]
      rw [if_neg hb]

/-- C9: the classifier is total and closed over the label set — whatever
the parse results and service replies, the returned `mapped_category` is
one of the enumerated target labels, and when every reply is empty,
unparseable, or carries a `mapped_category` outside the label set, the
result is the designated fallback "unclassifiable" label. -/
theorem classifier_closed_labels (parse : String → Option Tag.J)
    (replies : Nat → Tag.Reply) (mr : Nat) :
    (Tag.call_deepseek_json parse replies mr).mapped_category ∈ Tag.TARGET_CATEGORIES ∧
    ((∀ n, Tag.replyBad parse (replies n)) →
      (Tag.call_deepseek_json parse replies mr).mapped_category = "其他（不可分类的）") := by
  constructor
  · rw [Tag.call_deepseek_json]
    split
    · exact fallbackResult_mem _
    · exact callGo_mem parse replies mr _ _ _
  · intro hbad
    rw [Tag.call_deepseek_json]
    split
    · rfl
    · exact callGo_fallback parse replies mr hbad _ _ _

/-- Witness for C9: a service that always answers with
`mapped_category: "nonexistent"` yields the fallback label. -/
theorem classifier_closed_labels_wit :
    (Tag.call_deepseek_json Tag.parseNx Tag.repliesNx 5).mapped_category =
      "其他（不可分类的）" :=
  (classifier_closed_labels Tag.parseNx Tag.repliesNx 5).2
    (fun _ => (by decide : ("nonexistent" : String) ∉ Tag.TARGET_CATEGORIES))

theorem buildResult_conf_bounds (content : String) (l : List (String × Tag.J)) :
    0 ≤ (Tag.buildResult content l).confidence ∧
      (Tag.buildResult content l).confidence ≤ 1 := by
  have h : (Tag.buildResult content l).confidence =
      max 0 (min 1
        (match Tag.toFloatT ((Tag.lookupJT l "confidence").getD (Tag.J.num 0)) with
        | some q => q
        | none => 0)) := rfl
  rw [h]
  exact ⟨le_max_left _ _, max_le (by norm_num) (min_le_left _ _)⟩

theorem callGo_conf_bounds (parse : String → Option Tag.J) (replies : Nat → Tag.Reply)
    (mr : Nat) :
    ∀ fuel attempt lastErr,
      0 ≤ (Tag.callGo parse replies mr fuel attempt lastErr).confidence ∧
        (Tag.callGo parse replies mr fuel attempt lastErr).confidence ≤ 1 := by
  intro fuel
  induction fuel with
  | zero =>
    intro attempt lastErr
    exact ⟨le_refl 0, zero_le_one⟩
  | succ fuel ih =>
    intro attempt lastErr
    rw [Tag.callGo]
    split
    · split
      · exact ih _ _
      · exact ⟨le_refl 0, zero_le_one⟩
    · exact buildResult_conf_bounds _ _

/-- C10: every returned confidence lies in `[0, 1]`: a missing
confidence field becomes `0`, a numeric one is clamped by
`max(0.0, min(1.0, confidence))`, and the total-failure fallback carries
confidence `0`. -/
theorem classifier_confidence_clamped (parse : String → Option Tag.J)
    (replies : Nat → Tag.Reply) (mr : Nat) :
    0 ≤ (Tag.call_deepseek_json parse replies mr).confidence ∧
    (Tag.call_deepseek_json parse replies mr).confidence ≤ 1 ∧
    (∀ content l, Tag.lookupJT l "confidence" = none →
      (Tag.buildResult content l).confidence = 0) ∧
    (∀ content l q, Tag.lookupJT l "confidence" = some (Tag.J.num q) →
      (Tag.buildResult content l).confidence = max 0 (min 1 q)) ∧
    (∀ e, (Tag.fallbackResult e).confidence = 0) := by
  refine ⟨?_, ?_, ?_, ?_, fun e => rfl⟩
  · rw [Tag.call_deepseek_json]
    split
    · exact le_refl 0
    · exact (callGo_conf_bounds parse replies mr _ _ _).1
  · rw [Tag.call_deepseek_json]
    split
    · exact zero_le_one
    · exact (callGo_conf_bounds parse replies mr _ _ _).2
  · intro content l h
    simp [Tag.buildResult, h, Tag.toFloatT]
  · intro content l q h
    simp [Tag.buildResult, h, Tag.toFloatT]

/-- Witness for C10: a response without a confidence field gets
confidence `0`. -/
theorem classifier_confidence_clamped_wit :
    (Tag.buildResult "RESP" [("mapped_category", Tag.J.str "nonexistent")]).confidence = 0 :=
  (classifier_confidence_clamped Tag.parseNx Tag.repliesNx 5).2.2.1 "RESP"
    [("mapped_category", Tag.J.str "nonexistent")] rfl
